import Mathlib

/-!
# Verification of the weather-map synchronization engine

Shallow embedding of the core services of the repository
(`WeatherService` and `MapService`): the Overpass geodata query
post-processing, the weather gateway cache, the Leaflet dynamic loader
with bounded retries, and the marker reconciliation state machine
(dispatch of per-place weather fetches, out-of-order completions,
zoom full-clear and pan partial-clear).

Numbers: coordinates and zoom levels are modelled as `Int`; the result
of the JavaScript `Number(...)` coercion of a capital tag is modelled
as a `JSNum` (`NaN`, an infinity, or an exact finite value), with every
`NaN <= x` comparison false.
-/

namespace WeatherMap

/-! ## Geodata gateway: `MapService.fetchLocationsFromOverpass`

The Overpass response element and the `WeatherLocation` record it is
mapped to, then the filter / sort pipeline applied to the response.
-/

/-- Tags of an Overpass element (`element.tags`); every field is optional. -/
structure OverpassTags where
  name : Option String
  name_es : Option String
  name_en : Option String
  place : Option String
  capital : Option String
deriving DecidableEq

/-- An element of the Overpass response (`data.elements[i]`). -/
structure OverpassElement where
  id : Nat
  tags : Option OverpassTags
  lat : Option Int
  lon : Option Int
  center : Option (Int × Int)
deriving DecidableEq

/-- An exact, unreduced fraction with a (by construction) positive
denominator: the value of a finite JavaScript number literal.  The
binary64 rounding a JavaScript engine applies to the literal is not
modelled — values stay exact rationals; every comparison the pipeline
performs is against an integer zoom threshold, where exact and rounded
literals of the magnitudes OSM `capital` tags can take agree.
Fractions are compared by cross-multiplication and never reduced, so
equality of `JSFrac` is representation equality; it is only used on
values produced by the same deterministic construction. -/
structure JSFrac where
  num : Int
  den : Nat
deriving DecidableEq

/-- `a <= b` on exact fractions by cross-multiplication. -/
def JSFrac.le (a b : JSFrac) : Bool :=
  a.num * (b.den : Int) ≤ b.num * (a.den : Int)

/-- `a <= z` against an integer, by cross-multiplication. -/
def JSFrac.leInt (a : JSFrac) (z : Int) : Bool :=
  a.num ≤ z * (a.den : Int)

/-- A JavaScript number as produced by `Number(...)`: `NaN`, one of the
infinities, or a finite exact value. -/
inductive JSNum where
  | nan
  | posInf
  | negInf
  | fin (v : JSFrac)
deriving DecidableEq

/-- Unary minus on a JavaScript number. -/
def JSNum.neg : JSNum → JSNum
  | .nan => .nan
  | .posInf => .negInf
  | .negInf => .posInf
  | .fin v => .fin ⟨-v.num, v.den⟩

/-- The `WeatherLocation` record of `weather.service.ts`; `capital` is the
result of JavaScript `Number(...)` coercion. -/
structure WeatherLocation where
  id : String
  name : String
  name_es : Option String
  name_en : Option String
  latitude : Int
  longitude : Int
  capital : JSNum
  place : String
deriving DecidableEq

/-- JavaScript `a || d` on numbers: `a` is replaced by `d` when it is
absent (`undefined`) or `0` (falsy). -/
def jsOrNum (v : Option Int) (d : Int) : Int :=
  match v with
  | none => d
  | some x => if x = 0 then d else x

/-- JavaScript `a || d` on strings: `a` is replaced by `d` when it is
absent (`undefined`) or the empty string (falsy). -/
def jsOrStr (v : Option String) (d : String) : String :=
  match v with
  | none => d
  | some s => if s = "" then d else s

/-- Decimal digit test on a character (code points 48–57). -/
def isDigitChar (c : Char) : Bool := 48 ≤ c.toNat && c.toNat ≤ 57

/-- Value of a string of decimal digits, most significant first. -/
def digitsToNat : List Char → Nat → Nat
  | [], acc => acc
  | c :: cs, acc => digitsToNat cs (10 * acc + (c.toNat - 48))

/-- The white-space and line-terminator characters JavaScript trims
around a `StringNumericLiteral` (tab, LF, VT, FF, CR, space, NBSP, line
and paragraph separators, ZWNBSP; further Unicode `Space_Separator`
code points do not occur in OSM `capital` tags). -/
def jsWhitespace (c : Char) : Bool :=
  c = ' ' || c = '\t' || c = '\n' || c = '\r' || c = '\x0B' || c = '\x0C' ||
    c = '\u00A0' || c = '\u2028' || c = '\u2029' || c = '\uFEFF'

/-- Strip leading and trailing JavaScript white space. -/
def trimJs (cs : List Char) : List Char :=
  ((cs.dropWhile jsWhitespace).reverse.dropWhile jsWhitespace).reverse

/-- Value of one digit character in a given radix (hex digits accepted
in either case), if valid there. -/
def radixDigitVal (radix : Nat) (c : Char) : Option Nat :=
  let n := c.toNat
  let v : Option Nat :=
    if 48 ≤ n && n ≤ 57 then some (n - 48)          -- 0-9
    else if 97 ≤ n && n ≤ 102 then some (n - 87)    -- a-f
    else if 65 ≤ n && n ≤ 70 then some (n - 55)     -- A-F
    else none
  v.bind (fun d => if d < radix then some d else none)

/-- Value of a non-empty digit string in a radix; `none` when empty or
any character is invalid. -/
def radixDigitsVal (radix : Nat) (cs : List Char) : Option Nat :=
  match cs with
  | [] => none
  | _ => cs.foldl (fun acc c =>
      match acc, radixDigitVal radix c with
      | some a, some d => some (a * radix + d)
      | _, _ => none) (some 0)

/-- `ExponentPart` after the `e`/`E`: an optional sign then decimal
digits, consuming the whole remainder. -/
def parseExponent : List Char → Option Int
  | [] => none
  | '+' :: ds =>
    if ds ≠ [] && ds.all isDigitChar then some (digitsToNat ds 0) else none
  | '-' :: ds =>
    if ds ≠ [] && ds.all isDigitChar then some (-(digitsToNat ds 0 : Int))
    else none
  | ds =>
    if ds.all isDigitChar then some (digitsToNat ds 0) else none

/-- `[digits][.digits]` with at least one digit overall: the exact value
and the unconsumed remainder (so `5.`, `.5` and `2.5` all parse). -/
def parseDecMantissa (cs : List Char) : Option (JSFrac × List Char) :=
  let ip := cs.takeWhile isDigitChar
  let rest := cs.dropWhile isDigitChar
  match rest with
  | '.' :: rest2 =>
    let fp := rest2.takeWhile isDigitChar
    let rest3 := rest2.dropWhile isDigitChar
    if ip = [] && fp = [] then none
    else some (⟨Int.ofNat (digitsToNat ip 0 * 10 ^ fp.length + digitsToNat fp 0),
               10 ^ fp.length⟩, rest3)
  | _ =>
    if ip = [] then none else some (⟨Int.ofNat (digitsToNat ip 0), 1⟩, rest)

/-- Scale an exact value by `10 ^ e`. -/
def applyExp (v : JSFrac) (e : Int) : JSFrac :=
  match e with
  | .ofNat n => ⟨v.num * Int.ofNat (10 ^ n), v.den⟩
  | .negSucc n => ⟨v.num, v.den * 10 ^ (n + 1)⟩

/-- `StrUnsignedDecimalLiteral`: `Infinity`, or a decimal mantissa with
an optional exponent, consuming the whole remainder. -/
def parseUnsignedDec (cs : List Char) : Option JSNum :=
  if cs = ['I', 'n', 'f', 'i', 'n', 'i', 't', 'y'] then some .posInf
  else
    match parseDecMantissa cs with
    | some (v, []) => some (.fin v)
    | some (v, 'e' :: rest) => (parseExponent rest).map (fun e => .fin (applyExp v e))
    | some (v, 'E' :: rest) => (parseExponent rest).map (fun e => .fin (applyExp v e))
    | _ => none

/-- `0x` / `0o` / `0b` literals (unsigned only, as in the JS grammar:
`Number('-0x10')` is `NaN`). -/
def parseRadix (cs : List Char) : Option JSNum :=
  match cs with
  | '0' :: x :: ds =>
    if x = 'x' || x = 'X' then
      (radixDigitsVal 16 ds).map (fun n => .fin ⟨Int.ofNat n, 1⟩)
    else if x = 'o' || x = 'O' then
      (radixDigitsVal 8 ds).map (fun n => .fin ⟨Int.ofNat n, 1⟩)
    else if x = 'b' || x = 'B' then
      (radixDigitsVal 2 ds).map (fun n => .fin ⟨Int.ofNat n, 1⟩)
    else none
  | _ => none

/-- JavaScript `ToNumber` on a string, the `StringNumericLiteral`
grammar: trim JavaScript white space; an empty remainder means `0`;
then an unsigned hex / octal / binary literal, or an optionally signed
decimal literal or `Infinity`; everything else is `NaN`. -/
def jsNumberOfChars (cs0 : List Char) : JSNum :=
  match trimJs cs0 with
  | [] => .fin ⟨0, 1⟩
  | cs =>
    match parseRadix cs with
    | some v => v
    | none =>
      match cs with
      | '+' :: rest =>
        match parseUnsignedDec rest with
        | some v => v
        | none => .nan
      | '-' :: rest =>
        match parseUnsignedDec rest with
        | some v => v.neg
        | none => .nan
      | _ =>
        match parseUnsignedDec cs with
        | some v => v
        | none => .nan

/-- JavaScript `Number(v)` for the optional `capital` tag value:
`Number(undefined)` is `NaN`, a string goes through `ToNumber`. -/
def jsNumber (v : Option String) : JSNum :=
  match v with
  | none => .nan
  | some s => jsNumberOfChars s.toList

/-- `element.tags?.capital === 'yes' ? 1 : Number(element.tags?.capital)`. -/
def capitalValue (tags : Option OverpassTags) : JSNum :=
  if tags.bind (fun t => t.capital) = some "yes" then .fin ⟨1, 1⟩
  else jsNumber (tags.bind (fun t => t.capital))

/-- The `.filter((element) => element?.tags?.place)` truthiness test. -/
def placeTruthy (e : OverpassElement) : Bool :=
  match e.tags.bind (fun t => t.place) with
  | some s => s ≠ ""
  | none => false

/-- The `.map` step building a `WeatherLocation` from an Overpass element. -/
def toWeatherLocation (e : OverpassElement) : WeatherLocation :=
  { id := toString e.id
  , name := jsOrStr (e.tags.bind (fun t => t.name)) "Unknown"
  , name_es := e.tags.bind (fun t => t.name_es)
  , name_en := e.tags.bind (fun t => t.name_en)
  , latitude := jsOrNum e.lat (match e.center with | some c => c.1 | none => 0)
  , longitude := jsOrNum e.lon (match e.center with | some c => c.2 | none => 0)
  , capital := capitalValue e.tags
  , place := jsOrStr (e.tags.bind (fun t => t.place)) "" }

/-- `location.capital <= z` under JavaScript semantics: false when the
capital is `NaN` (any comparison with `NaN` is false) or `+Infinity`,
true for `-Infinity`, and the exact comparison otherwise. -/
def nanLe (c : JSNum) (z : Int) : Bool :=
  match c with
  | .nan => false
  | .posInf => false
  | .negInf => true
  | .fin v => v.leInt z

/-- `this.currentZoomLevel || 9`: `0` (the only falsy number reachable
here) falls back to `9`. -/
def zoomOr9 (zoom : Int) : Int := if zoom = 0 then 9 else zoom

/-- The second `.filter` of the pipeline: non-zero coordinates, a usable
name and `capital <= (currentZoomLevel || 9)`. -/
def keepLocation (zoom : Int) (l : WeatherLocation) : Bool :=
  l.latitude ≠ 0 && l.longitude ≠ 0 && l.name ≠ "Unknown" &&
    nanLe l.capital (zoomOr9 zoom)

/-- The comparator `(a, b) => a.capital - b.capital` read as "a sorts
before or with b": a negative difference orders a first, a positive one
b first, and a `NaN` difference (equal infinities, or a `NaN` operand —
never produced after the rank filter) is treated as 0 by `Array.sort`,
keeping the original order. -/
def capLe : JSNum → JSNum → Bool
  | .nan, _ => true
  | _, .nan => true
  | .fin a, .fin b => a.le b
  | .negInf, _ => true
  | _, .negInf => false
  | .posInf, .posInf => true
  | .posInf, .fin _ => false
  | .fin _, .posInf => true

/-- Stable insertion of one location into a list sorted ascending by
capital (ties keep their original relative order, as the JavaScript
stable `Array.sort` does with the numeric comparator). -/
def insertSorted (x : WeatherLocation) : List WeatherLocation → List WeatherLocation
  | [] => [x]
  | y :: ys =>
    if capLe x.capital y.capital then x :: y :: ys else y :: insertSorted x ys

/-- Stable sort ascending by capital, the model of
`.sort((a, b) => a.capital - b.capital)`. -/
def sortByCapital : List WeatherLocation → List WeatherLocation
  | [] => []
  | x :: xs => insertSorted x (sortByCapital xs)

/-- `MapService.fetchLocationsFromOverpass`, success path in a browser:
the post-processing applied to the elements of the Overpass response,
at the tracked zoom level `zoom`. -/
def fetchLocationsFromOverpass (zoom : Int) (elements : List OverpassElement) :
    List WeatherLocation :=
  sortByCapital
    (((elements.filter placeTruthy).map toWeatherLocation).filter
      (keepLocation zoom))

theorem mem_insertSorted {x y : WeatherLocation} {l : List WeatherLocation} :
    y ∈ insertSorted x l ↔ y = x ∨ y ∈ l := by
  induction l with
  | nil => simp [insertSorted]
  | cons z zs ih =>
    by_cases h : capLe x.capital z.capital
    · simp [insertSorted, h]
    · simp only [insertSorted, if_neg h, List.mem_cons, ih]
      tauto

theorem mem_sortByCapital {y : WeatherLocation} {l : List WeatherLocation} :
    y ∈ sortByCapital l ↔ y ∈ l := by
  induction l with
  | nil => simp [sortByCapital]
  | cons z zs ih => simp [sortByCapital, mem_insertSorted, ih]

/-- A sample Overpass node element with a usable name, non-zero
coordinates and a given `capital` tag. -/
def sampleElement (i : Nat) (nm cap : String) : OverpassElement :=
  { id := i
  , tags := some { name := some nm, name_es := none, name_en := none
                 , place := some "city", capital := some cap }
  , lat := some 40, lon := some (-3), center := none }

/-- The candidate list of the rank-filter property: administrative ranks
`[0, 5, 9, 12]`, each with a usable name and non-zero coordinates. -/
def rankCandidates : List OverpassElement :=
  [sampleElement 1 "A" "0", sampleElement 2 "B" "5",
   sampleElement 3 "C" "9", sampleElement 4 "D" "12"]

/-- **C2** (counterexample): at zoom 6 with candidate ranks `[0,5,9,12]`,
`fetchLocationsFromOverpass` keeps only ranks `≤ 6` (the filter is
`capital <= (currentZoomLevel || 9)` and zoom 6 is truthy, so the
threshold is 6, not 9): the result has ranks `[0, 5]`, not the claimed
`[0, 5, 9]`. -/
theorem fetch_rank_filter_zoom6_counterexample :
    (fetchLocationsFromOverpass 6 rankCandidates).map (fun l => l.capital)
        = [JSNum.fin ⟨0, 1⟩, JSNum.fin ⟨5, 1⟩] ∧
    ¬ ((fetchLocationsFromOverpass 6 rankCandidates).map (fun l => l.capital)
        = [JSNum.fin ⟨0, 1⟩, JSNum.fin ⟨5, 1⟩, JSNum.fin ⟨9, 1⟩]) := by
  decide

/-- **C2** (amended): at zoom 6, given candidate places with
administrative ranks `[0, 5, 9, 12]` (each with a usable name and
non-zero coordinates), the result contains exactly the places with rank
`≤ 6` (the current zoom), ordered ascending by rank as `[0, 5]`; every
returned place satisfies `rank ≤ 6`. -/
theorem fetch_rank_filter_zoom6_amended :
    (fetchLocationsFromOverpass 6 rankCandidates).map
        (fun l => (l.name, l.capital))
        = [("A", JSNum.fin ⟨0, 1⟩), ("B", JSNum.fin ⟨5, 1⟩)] ∧
    (fetchLocationsFromOverpass 6 rankCandidates).all
        (fun l => nanLe l.capital 6) = true := by
  decide

/-- Evaluations of the `Number(...)` model on strings JavaScript coerces
to numbers (fractions, explicit `+` sign, surrounding white space,
exponents, hex, the empty string, infinities) and on strings it coerces
to `NaN`; a place whose `capital` tag is `"2.5"` passes the rank filter
at zoom 3 and fails it at zoom 2, exactly as `2.5 <= zoom` does. -/
theorem jsNumber_model_evaluations :
    jsNumber (some "2.5") ≠ JSNum.nan ∧
    nanLe (jsNumber (some "2.5")) 3 = true ∧
    nanLe (jsNumber (some "2.5")) 2 = false ∧
    jsNumber (some "+5") = JSNum.fin ⟨5, 1⟩ ∧
    nanLe (jsNumber (some " 3 ")) 3 = true ∧
    jsNumber (some "1e2") = JSNum.fin ⟨100, 1⟩ ∧
    jsNumber (some "0x10") = JSNum.fin ⟨16, 1⟩ ∧
    jsNumber (some "") = JSNum.fin ⟨0, 1⟩ ∧
    jsNumber (some "Infinity") = JSNum.posInf ∧
    jsNumber (some "-Infinity") = JSNum.negInf ∧
    nanLe (jsNumber (some "-1.5e-1")) 0 = true ∧
    jsNumber (some "abc") = JSNum.nan ∧
    jsNumber (some "12px") = JSNum.nan ∧
    jsNumber (some "-0x10") = JSNum.nan ∧
    jsNumber none = JSNum.nan ∧
    keepLocation 3 (toWeatherLocation (sampleElement 9 "E" "2.5")) = true ∧
    keepLocation 2 (toWeatherLocation (sampleElement 9 "E" "2.5")) = false := by
  decide

/-- **C10**: every place returned by `fetchLocationsFromOverpass` carries
a numerically comparable capital rank: an element whose `capital` tag is
absent, or is a string other than `"yes"` that JavaScript `Number(...)`
coerces to `NaN`, maps to `NaN`; such an element fails the
`capital <= zoom` filter for every zoom level; and no returned place has
a `NaN` rank. -/
theorem fetch_capital_rank_numeric (zoom : Int) (elements : List OverpassElement) :
    (∀ e : OverpassElement,
      (e.tags.bind (fun t => t.capital) = none ∨
        ∃ s, e.tags.bind (fun t => t.capital) = some s ∧ s ≠ "yes" ∧
          jsNumberOfChars s.toList = JSNum.nan) →
      (toWeatherLocation e).capital = JSNum.nan) ∧
    (∀ e : OverpassElement, (toWeatherLocation e).capital = JSNum.nan →
      keepLocation zoom (toWeatherLocation e) = false) ∧
    (∀ l ∈ fetchLocationsFromOverpass zoom elements, l.capital ≠ JSNum.nan) := by
  refine ⟨?_, ?_, ?_⟩
  · intro e h
    rcases h with h | ⟨s, hs, hyes, hparse⟩
    · simp [toWeatherLocation, capitalValue, jsNumber, h]
    · simp only [toWeatherLocation, capitalValue, hs]
      rw [if_neg (by simpa using hyes)]
      simp only [jsNumber]
      exact hparse
  · intro e h
    simp [keepLocation, nanLe, h]
  · intro l hl
    simp only [fetchLocationsFromOverpass, mem_sortByCapital] at hl
    have hk : keepLocation zoom l = true := (List.mem_filter.mp hl).2
    simp only [keepLocation, Bool.and_eq_true] at hk
    rcases hk with ⟨-, hc⟩
    cases hcap : l.capital with
    | nan => rw [hcap] at hc; simp [nanLe] at hc
    | posInf => simp
    | negInf => simp
    | fin v => simp

/-- An Overpass node element with no `capital` tag at all. -/
def capitalFreeElement : OverpassElement :=
  { id := 7
  , tags := some { name := some "Aldea", name_es := none, name_en := none
                 , place := some "village", capital := none }
  , lat := some 39, lon := some (-1), center := none }

/-- **C10** witness: the general theorem applied to a concrete element
whose `capital` tag is absent, at zoom 11. -/
theorem fetch_capital_rank_numeric_witness :
    (toWeatherLocation capitalFreeElement).capital = JSNum.nan ∧
    keepLocation 11 (toWeatherLocation capitalFreeElement) = false ∧
    ∀ l ∈ fetchLocationsFromOverpass 11 [capitalFreeElement],
      l.capital ≠ JSNum.nan := by
  have h := fetch_capital_rank_numeric 11 [capitalFreeElement]
  exact ⟨h.1 capitalFreeElement (Or.inl rfl),
         h.2.1 capitalFreeElement (by decide),
         h.2.2⟩

/-! ## Weather gateway: `WeatherService.getWeatherForLocation`

The cache-or-fetch logic of `getWeatherForLocation`.  The HTTP call and
the Open-Meteo response mapping performed by `getOpenMeteoWeatherData`
are abstracted as a `NetOutcome`: either the mapped `WeatherData` the
observable would emit, or a network error.  The model counts the network
requests issued and the errors reported to the logging collaborator
(`console.error`). -/

/-- The `WeatherData` record of `weather.service.ts` (the forecast list is
folded into scalar fields sufficient to compare snapshots for equality). -/
structure WeatherData where
  locationId : String
  temperature : Int
  description : String
  humidity : Int
  windSpeed : Int
  precipitation : Int
  date : String
  icon : String
deriving DecidableEq

/-- Outcome of the HTTP fetch to the forecast provider: the mapped
`WeatherData` on success, or a transport error. -/
inductive NetOutcome where
  | ok (d : WeatherData)
  | err
deriving DecidableEq

/-- Mutable state of `WeatherService`: the cache keyed by `place.id` and
the `currentWeather` signal. -/
structure WeatherServiceState where
  weatherCache : List (String × WeatherData)
  currentWeather : Option WeatherData
deriving DecidableEq

/-- `this.weatherCache.get(cacheKey)` (with `has` as `isSome`). -/
def cacheLookup (c : List (String × WeatherData)) (k : String) : Option WeatherData :=
  (c.find? (fun p => p.1 = k)).map (fun p => p.2)

/-- Result of one `getWeatherForLocation` call: the value the observable
completes with, the service state afterwards, the number of network
requests issued, and the number of errors reported to the logger. -/
structure WeatherCallResult where
  result : Option WeatherData
  state : WeatherServiceState
  networkCalls : Nat
  errorsLogged : Nat
deriving DecidableEq

/-- `WeatherService.getWeatherForLocation`: outside the browser it
completes with `null`; on a cache hit it returns the stored snapshot
with no network request; on a miss it issues one request, caching and
returning the data on success (`tap`), or logging the error and
completing with `null` on failure (`catchError`). -/
def getWeatherForLocation (isBrowser : Bool) (net : NetOutcome)
    (loc : WeatherLocation) (s : WeatherServiceState) : WeatherCallResult :=
  if !isBrowser then ⟨none, s, 0, 0⟩
  else
    match cacheLookup s.weatherCache loc.id with
    | some cached => ⟨some cached, { s with currentWeather := some cached }, 0, 0⟩
    | none =>
      match net with
      | .ok d =>
        ⟨some d, ⟨(loc.id, d) :: s.weatherCache, some d⟩, 1, 0⟩
      | .err => ⟨none, s, 1, 1⟩

/-- A concrete place used to instantiate the weather-gateway theorems. -/
def sampleWeatherLoc : WeatherLocation :=
  { id := "42", name := "Madrid", name_es := some "Madrid", name_en := some "Madrid"
  , latitude := 40, longitude := -3, capital := .fin ⟨1, 1⟩, place := "city" }

/-- A concrete weather snapshot for `sampleWeatherLoc`. -/
def sampleWeatherData : WeatherData :=
  { locationId := "42", temperature := 21, description := "Soleado"
  , humidity := 40, windSpeed := 10, precipitation := 0
  , date := "2024-05-01T12:00", icon := "sun" }

/-- **C6**: in a browser, starting from a state with no cache entry for
the place id, calling the weather gateway twice for the same place with
the first fetch succeeding issues exactly one network request in total:
the first call performs one request and the second (cache-hit) call
performs zero, and both calls return the same snapshot. -/
theorem weather_cache_idempotent (loc : WeatherLocation) (d : WeatherData)
    (net2 : NetOutcome) (s : WeatherServiceState)
    (hmiss : cacheLookup s.weatherCache loc.id = none) :
    (getWeatherForLocation true (.ok d) loc s).networkCalls = 1 ∧
    (getWeatherForLocation true net2 loc
        (getWeatherForLocation true (.ok d) loc s).state).networkCalls = 0 ∧
    (getWeatherForLocation true (.ok d) loc s).result = some d ∧
    (getWeatherForLocation true net2 loc
        (getWeatherForLocation true (.ok d) loc s).state).result
      = (getWeatherForLocation true (.ok d) loc s).result := by
  simp only [getWeatherForLocation, Bool.not_true, Bool.false_eq_true, if_false]
  rw [hmiss]
  simp [cacheLookup]

/-- **C6** witness: a concrete fresh cache, place and snapshot. -/
theorem weather_cache_idempotent_witness :
    cacheLookup (⟨[], none⟩ : WeatherServiceState).weatherCache "42" = none ∧
    ((getWeatherForLocation true (.ok sampleWeatherData) sampleWeatherLoc
        ⟨[], none⟩).networkCalls = 1 ∧
     (getWeatherForLocation true .err sampleWeatherLoc
        (getWeatherForLocation true (.ok sampleWeatherData) sampleWeatherLoc
          ⟨[], none⟩).state).networkCalls = 0 ∧
     (getWeatherForLocation true (.ok sampleWeatherData) sampleWeatherLoc
        ⟨[], none⟩).result = some sampleWeatherData ∧
     (getWeatherForLocation true .err sampleWeatherLoc
        (getWeatherForLocation true (.ok sampleWeatherData) sampleWeatherLoc
          ⟨[], none⟩).state).result
       = (getWeatherForLocation true (.ok sampleWeatherData) sampleWeatherLoc
          ⟨[], none⟩).result) :=
  ⟨by decide,
   weather_cache_idempotent sampleWeatherLoc sampleWeatherData .err ⟨[], none⟩
     (by decide)⟩

/-- **C7**: on a network error during a weather fetch (a cache miss in a
browser), the call completes with `null`, the error is reported to the
logging collaborator exactly once, and the service state — in particular
the cache — is left unchanged. -/
theorem weather_error_yields_null (loc : WeatherLocation)
    (s : WeatherServiceState)
    (hmiss : cacheLookup s.weatherCache loc.id = none) :
    (getWeatherForLocation true .err loc s).result = none ∧
    (getWeatherForLocation true .err loc s).errorsLogged = 1 ∧
    (getWeatherForLocation true .err loc s).state = s ∧
    cacheLookup (getWeatherForLocation true .err loc s).state.weatherCache
        loc.id = none := by
  simp only [getWeatherForLocation, Bool.not_true, Bool.false_eq_true, if_false]
  rw [hmiss]
  simp [hmiss]

/-- **C7** witness: a concrete place and empty cache. -/
theorem weather_error_yields_null_witness :
    cacheLookup (⟨[], none⟩ : WeatherServiceState).weatherCache "42" = none ∧
    ((getWeatherForLocation true .err sampleWeatherLoc ⟨[], none⟩).result = none ∧
     (getWeatherForLocation true .err sampleWeatherLoc ⟨[], none⟩).errorsLogged = 1 ∧
     (getWeatherForLocation true .err sampleWeatherLoc ⟨[], none⟩).state
        = (⟨[], none⟩ : WeatherServiceState) ∧
     cacheLookup (getWeatherForLocation true .err sampleWeatherLoc
        ⟨[], none⟩).state.weatherCache "42" = none) :=
  ⟨by decide, weather_error_yields_null sampleWeatherLoc ⟨[], none⟩ (by decide)⟩

/-! ## Dynamic library loader: `MapService.loadLeaflet` and `getLeaflet`

The loader performs asynchronous imports with a bounded retry loop
(`loadAttempts` / `MAX_LOAD_ATTEMPTS`), verifies that the imported
handle exposes the `Map` constructor, reuses and publishes the shared
`window.L` slot, and memoizes the load promise per service instance. -/

/-- An imported Leaflet library handle: whether it exposes the `Map`
constructor, plus a tag distinguishing distinct import results. -/
structure Handle where
  hasMapCtor : Bool
  tag : Nat
deriving DecidableEq

/-- Outcome of one dynamic `import('leaflet')`: the import can reject,
or resolve with a handle (whose `Map` constructor may be missing). -/
inductive ImportOutcome where
  | fail
  | success (h : Handle)
deriving DecidableEq

/-- Loader state of `MapService` plus the shared `window.L` slot.
`L` and `loadPromise` (the resolved value of `leafletLoadPromise`) are
instance-level memoization; `windowL` is the process-wide slot. -/
structure LoaderState where
  L : Option Handle
  loadAttempts : Nat
  windowL : Option Handle
  loadPromise : Option (Option Handle)
deriving DecidableEq

/-- `private readonly MAX_LOAD_ATTEMPTS = 3`. -/
def MAX_LOAD_ATTEMPTS : Nat := 3

/-- One run of `MapService.loadLeaflet` in a browser.  `oracle n` is the
outcome of the dynamic import performed on attempt number `n`.  `fuel`
bounds the recursion; the code's own guard `loadAttempts <
MAX_LOAD_ATTEMPTS` keeps the recursion depth below `MAX_LOAD_ATTEMPTS`,
so `fuel = MAX_LOAD_ATTEMPTS` is never exhausted.  Returns the resolved
handle (or `null`), the state afterwards, and the number of attempts
started. -/
def loadLeafletGo (oracle : Nat → ImportOutcome) :
    Nat → LoaderState → Option Handle × LoaderState × Nat
  | 0, s => (none, s, 0)
  | fuel + 1, s =>
    let a := s.loadAttempts + 1
    let s1 : LoaderState := { s with loadAttempts := a }
    let reuse : Option Handle :=
      match s1.windowL with
      | some h => if h.hasMapCtor then some h else none
      | none => none
    match reuse with
    | some h => (some h, { s1 with L := some h }, 1)
    | none =>
      match oracle a with
      | .fail =>
        if a < MAX_LOAD_ATTEMPTS then
          let r := loadLeafletGo oracle fuel s1
          (r.1, r.2.1, r.2.2 + 1)
        else (none, s1, 1)
      | .success h =>
        if h.hasMapCtor then
          (some h, { s1 with L := some h, windowL := some h }, 1)
        else if a < MAX_LOAD_ATTEMPTS then
          let r := loadLeafletGo oracle fuel s1
          (r.1, r.2.1, r.2.2 + 1)
        else (none, s1, 1)

/-- `MapService.loadLeaflet` entry point. -/
def loadLeaflet (oracle : Nat → ImportOutcome) (s : LoaderState) :
    Option Handle × LoaderState × Nat :=
  loadLeafletGo oracle MAX_LOAD_ATTEMPTS s

/-- **C3**: when every load attempt ends in an import failure or a
constructor-missing outcome (and the shared slot is empty, so no reuse
is possible), `loadLeaflet` starting from a fresh counter performs
exactly 3 attempts (`MAX_LOAD_ATTEMPTS`), returns a terminal `null`
failure, and never starts a 4th attempt. -/
theorem loader_bounded_retry (oracle : Nat → ImportOutcome) (s : LoaderState)
    (hA : s.loadAttempts = 0) (hW : s.windowL = none)
    (hbad : ∀ n, n ≤ MAX_LOAD_ATTEMPTS →
      oracle n = .fail ∨ ∃ h, oracle n = .success h ∧ h.hasMapCtor = false) :
    (loadLeaflet oracle s).1 = none ∧
    (loadLeaflet oracle s).2.2 = 3 ∧
    (loadLeaflet oracle s).2.1.loadAttempts = 3 := by
  obtain ⟨L0, att, w, lp⟩ := s
  simp only at hA hW
  subst hA hW
  rcases hbad 1 (by decide) with h1 | ⟨g1, h1, hg1⟩ <;>
    rcases hbad 2 (by decide) with h2 | ⟨g2, h2, hg2⟩ <;>
      rcases hbad 3 (by decide) with h3 | ⟨g3, h3, hg3⟩ <;>
        simp_all [loadLeaflet, loadLeafletGo, MAX_LOAD_ATTEMPTS]

/-- A fresh loader state: nothing loaded, no attempts, empty shared slot. -/
def initLoaderState : LoaderState := ⟨none, 0, none, none⟩

/-- An import oracle whose every import rejects. -/
def failOracle : Nat → ImportOutcome := fun _ => .fail

/-- **C3** witness: three consecutive import failures from the fresh
state give exactly 3 attempts and a terminal `null`. -/
theorem loader_bounded_retry_witness :
    (initLoaderState.loadAttempts = 0 ∧ initLoaderState.windowL = none) ∧
    ((loadLeaflet failOracle initLoaderState).1 = none ∧
     (loadLeaflet failOracle initLoaderState).2.2 = 3 ∧
     (loadLeaflet failOracle initLoaderState).2.1.loadAttempts = 3) :=
  ⟨⟨rfl, rfl⟩,
   loader_bounded_retry failOracle initLoaderState rfl rfl
     (fun _ _ => Or.inl rfl)⟩

/-- `MapService.getLeaflet`: outside the browser it resolves `null`;
with `forceReload` it resets the instance handle and the attempt
counter, starts a new `loadLeaflet` run and memoizes its promise;
otherwise it returns the memoized promise (or the current handle when
no load has been started). -/
def getLeaflet (oracle : Nat → ImportOutcome) (isBrowser forceReload : Bool)
    (s : LoaderState) : Option Handle × LoaderState × Nat :=
  if !isBrowser then (none, s, 0)
  else if forceReload then
    let s1 : LoaderState := { s with L := none, loadAttempts := 0 }
    let r := loadLeaflet oracle s1
    (r.1, { r.2.1 with loadPromise := some r.1 }, r.2.2)
  else
    match s.loadPromise with
    | some r => (r, s, 0)
    | none => (s.L, s, 0)

/-- A handle published to `window.L` by an earlier successful load. -/
def staleHandle : Handle := ⟨true, 0⟩

/-- A distinct handle a fresh import would produce. -/
def freshHandle : Handle := ⟨true, 1⟩

/-- Loader state after a completed earlier load cycle that published
`staleHandle` everywhere. -/
def staleLoaderState : LoaderState :=
  ⟨some staleHandle, 3, some staleHandle, some (some staleHandle)⟩

/-- An import oracle that always resolves with the fresh handle. -/
def freshOracle : Nat → ImportOutcome := fun _ => .success freshHandle

/-- **C8** (counterexample): `getLeaflet(forceReload = true)` does not
clear the shared process-wide slot (`window.L`): from a state whose
shared slot holds a previously published handle, the forced reload
leaves the slot populated and returns that stale handle instead of the
handle a fresh import would produce — so not every cached handle a
subsequent load could observe is cleared. -/
theorem force_reload_counterexample :
    (getLeaflet freshOracle true true staleLoaderState).2.1.windowL
        = some staleHandle ∧
    (getLeaflet freshOracle true true staleLoaderState).1 = some staleHandle ∧
    (getLeaflet freshOracle true true staleLoaderState).1 ≠ some freshHandle := by
  decide

/-- **C8** (amended): `forceReload = true` clears the instance-level
memoization (cached handle, attempt counter, load promise) and repeats
the load-attempt cycle from attempt 1, but it does not clear the shared
process-wide slot: when that slot holds a handle exposing the `Map`
constructor, the restarted cycle performs exactly one attempt that
returns the shared handle without importing. -/
theorem force_reload_amended (oracle : Nat → ImportOutcome) (s : LoaderState)
    (hdl : Handle) (hw : s.windowL = some hdl) (hc : hdl.hasMapCtor = true) :
    getLeaflet oracle true true s
      = (some hdl,
         { L := some hdl, loadAttempts := 1, windowL := some hdl
         , loadPromise := some (some hdl) }, 1) := by
  obtain ⟨L0, att, w, lp⟩ := s
  simp only at hw
  subst hw
  simp [getLeaflet, loadLeaflet, loadLeafletGo, MAX_LOAD_ATTEMPTS, hc]

/-- **C8** witness for the amended theorem: the concrete stale state. -/
theorem force_reload_amended_witness :
    (staleLoaderState.windowL = some staleHandle ∧
      staleHandle.hasMapCtor = true) ∧
    getLeaflet freshOracle true true staleLoaderState
      = (some staleHandle,
         { L := some staleHandle, loadAttempts := 1, windowL := some staleHandle
         , loadPromise := some (some staleHandle) }, 1) :=
  ⟨⟨rfl, rfl⟩,
   force_reload_amended freshOracle staleLoaderState staleHandle rfl rfl⟩

/-! ## Viewport listeners: `MapService.updateMarkersOnMapChange`

The `moveend` handler compares the map's zoom level with the tracked
`currentZoomLevel` to suppress the move notification Leaflet fires right
after a zoom. -/

/-- A viewport bounds rectangle. -/
structure Bounds where
  north : Int
  south : Int
  east : Int
  west : Int
deriving DecidableEq

/-- A bounds event pushed into the debounced `mapMoveSubject`. -/
structure BoundsEvent where
  bounds : Bounds
  isZoomChange : Bool
deriving DecidableEq

/-- Listener-side state: the tracked zoom level and the sequence of
events emitted into `mapMoveSubject`. -/
structure ListenerState where
  currentZoomLevel : Int
  emitted : List BoundsEvent
deriving DecidableEq

/-- The `moveend` handler: when the observed zoom differs from the
tracked zoom the move was triggered by a zoom, so the handler only
updates the tracked zoom and returns; otherwise it emits a pan-tagged
bounds event. -/
def onMoveEnd (newZoom : Int) (b : Bounds) (s : ListenerState) : ListenerState :=
  if newZoom ≠ s.currentZoomLevel then { s with currentZoomLevel := newZoom }
  else { s with emitted := s.emitted ++ [⟨b, false⟩] }

/-- **C9**: a `moveend` notification observed with a zoom level different
from the tracked one is never forwarded as a pan-tagged bounds event:
the handler only updates the tracked zoom level, and the emitted event
stream is unchanged. -/
theorem moveend_after_zoom_suppressed (newZoom : Int) (b : Bounds)
    (s : ListenerState) (h : newZoom ≠ s.currentZoomLevel) :
    onMoveEnd newZoom b s = { s with currentZoomLevel := newZoom } ∧
    (onMoveEnd newZoom b s).emitted = s.emitted := by
  simp [onMoveEnd, h]

/-- **C9** witness: tracked zoom 6, observed zoom 7. -/
theorem moveend_after_zoom_suppressed_witness :
    (7 : Int) ≠ (⟨6, []⟩ : ListenerState).currentZoomLevel ∧
    (onMoveEnd 7 ⟨1, 0, 1, 0⟩ ⟨6, []⟩ = { currentZoomLevel := 7, emitted := [] } ∧
     (onMoveEnd 7 ⟨1, 0, 1, 0⟩ ⟨6, []⟩).emitted = []) :=
  ⟨by decide, moveend_after_zoom_suppressed 7 ⟨1, 0, 1, 0⟩ ⟨6, []⟩ (by decide)⟩

/-! ## Marker reconciler: `addMarkersForLocations` and `clearMarkers`

The reconciler is single-threaded and event driven; per-place weather
fetches started by `addMarkersForLocations` are asynchronous and may
complete out of order.  We model its evolution as a state machine over
atomic events: one `forEach` iteration of `addMarkersForLocations`
(which checks the id-set and, if absent, subscribes to a weather fetch),
the completion of one in-flight weather fetch (which, on a non-null
snapshot, creates, pushes and registers the marker), and the two clear
passes run by the debounced viewport pipeline. -/

/-- A rendered marker (an `L.Marker` created by `createWeatherMarker`),
carrying the place id it was created for and its position; the
`markerToLocationId` map of the source is represented by the `locId`
field. -/
structure Marker where
  locId : String
  lat : Int
  lng : Int
deriving DecidableEq

/-- Reconciler state of `MapService`: the `markers` array, the
`markerLocationIds` set (a duplicate-free list) and the weather fetches
currently in flight. -/
structure MapState where
  markers : List Marker
  markerLocationIds : List String
  pending : List WeatherLocation
deriving DecidableEq

/-- `Set.add`. -/
def insertId (i : String) (l : List String) : List String :=
  if i ∈ l then l else l ++ [i]

/-- `bounds.contains(latLng)`: inclusive rectangle containment. -/
def boundsContains (b : Bounds) (lat lng : Int) : Bool :=
  b.south ≤ lat && lat ≤ b.north && b.west ≤ lng && lng ≤ b.east

/-- An atomic reconciler event:

* `dispatch loc` — one iteration of the `forEach` in
  `addMarkersForLocations`: skip when `markerLocationIds` already holds
  `loc.id`, otherwise subscribe to a weather fetch for `loc` (in flight
  from now on);
* `complete loc ok` — the weather fetch for `loc` completes (`ok = false`
  models a `null` snapshot): on success the marker is created and pushed
  (`createWeatherMarker`) and the id registered (the `next` callback);
* `zoomClear` — `clearMarkers(true)` run by the debounced pipeline on a
  zoom-tagged event before the new geodata query: remove every marker
  and every registered id;
* `panClear b` — `clearMarkers(false)` on a pan-tagged event: remove
  only the markers whose position falls outside the current bounds `b`,
  deleting their location ids from the set. -/
inductive MEvent where
  | dispatch (loc : WeatherLocation)
  | complete (loc : WeatherLocation) (ok : Bool)
  | zoomClear
  | panClear (b : Bounds)
deriving DecidableEq

/-- One reconciler step, a direct transcription of
`addMarkersForLocations` (dispatch and completion halves),
`clearAllMarkersInternal` and the `clearMarkers(false)` branch. -/
def mstep (s : MapState) : MEvent → MapState
  | .dispatch loc =>
    if loc.id ∈ s.markerLocationIds then s
    else { s with pending := s.pending ++ [loc] }
  | .complete loc ok =>
    if loc ∈ s.pending then
      let s1 := { s with pending := s.pending.erase loc }
      if ok then
        { s1 with
          markers := s1.markers ++ [⟨loc.id, loc.latitude, loc.longitude⟩]
          markerLocationIds := insertId loc.id s1.markerLocationIds }
      else s1
    else s
  | .zoomClear => { s with markers := [], markerLocationIds := [] }
  | .panClear b =>
    let removed := s.markers.filter (fun m => !(boundsContains b m.lat m.lng))
    { s with
      markers := s.markers.filter (fun m => boundsContains b m.lat m.lng)
      markerLocationIds := s.markerLocationIds.filter
        (fun i => !(removed.any (fun m => m.locId = i))) }

/-- Run a sequence of reconciler events. -/
def mrun (s : MapState) (es : List MEvent) : MapState := es.foldl mstep s

/-- The reconciler state at service construction. -/
def initMapState : MapState := ⟨[], [], []⟩

/-- Number of rendered markers for a given place id. -/
def markerCount (s : MapState) (i : String) : Nat :=
  s.markers.countP (fun m => m.locId = i)

/-- Number of in-flight weather fetches for a given place id. -/
def pendingCount (s : MapState) (i : String) : Nat :=
  s.pending.countP (fun l => l.id = i)

/-- A place used in the reconciler scenarios. -/
def locX : WeatherLocation :=
  ⟨"1", "X", none, none, 10, 10, .fin ⟨1, 1⟩, "city"⟩

/-- Another place, distinct id and position. -/
def locY : WeatherLocation :=
  ⟨"2", "Y", none, none, 20, 20, .fin ⟨1, 1⟩, "city"⟩

/-- Two `addMarkersForLocations` dispatches of the same place id while
the first weather fetch is still in flight, then both responses. -/
def dupEvents : List MEvent :=
  [.dispatch locX, .dispatch locX, .complete locX true, .complete locX true]

/-- **C1** (counterexample): the id-set membership check of
`addMarkersForLocations` runs when the fetch is dispatched, but the id
is registered only in the completion callback, so dispatching the same
place id again while its first weather fetch is still in flight creates
two markers for that id once both responses arrive: the rendered marker
count for id `"1"` reaches 2. -/
theorem marker_dedup_counterexample :
    markerCount (mrun initMapState dupEvents) "1" = 2 ∧
    ¬ markerCount (mrun initMapState dupEvents) "1" ≤ 1 := by
  decide

/-- Two distinct members both satisfying a predicate force a count of at
least two. -/
theorem two_le_countP {α : Type} [DecidableEq α] (p : α → Bool) {l : List α}
    {a b : α} (ha : a ∈ l) (hb : b ∈ l) (hab : a ≠ b)
    (hpa : p a = true) (hpb : p b = true) : 2 ≤ l.countP p := by
  have hperm := List.perm_cons_erase ha
  have hb' : b ∈ l.erase a := (List.mem_erase_of_ne (Ne.symm hab)).mpr hb
  have hpos : 0 < (l.erase a).countP p :=
    List.countP_pos_iff.mpr ⟨b, hb', hpb⟩
  have := hperm.countP_eq p
  rw [this, List.countP_cons, if_pos hpa]
  omega

/-- Distinct marker ids give an injective `locId` over the marker list. -/
theorem markers_inj_of_count {s : MapState} (h : ∀ i, markerCount s i ≤ 1) :
    ∀ x ∈ s.markers, ∀ y ∈ s.markers, x.locId = y.locId → x = y := by
  intro x hx y hy hxy
  by_contra hne
  have h2 := two_le_countP (fun m => m.locId = x.locId) hx hy hne
      (by simp) (by simp [hxy])
  have hc := h x.locId
  unfold markerCount at hc
  omega

/-- An in-bounds marker whose id no other marker shares keeps its id in
the set across `clearMarkers(false)`. -/
theorem panClear_keeps_id {s : MapState} {b : Bounds} {m : Marker}
    (hinj : ∀ x ∈ s.markers, ∀ y ∈ s.markers, x.locId = y.locId → x = y)
    (hm : m ∈ s.markers) (hin : boundsContains b m.lat m.lng = true)
    (hid : m.locId ∈ s.markerLocationIds) :
    m.locId ∈ (mstep s (.panClear b)).markerLocationIds := by
  simp only [mstep]
  rw [List.mem_filter]
  refine ⟨hid, ?_⟩
  simp only [Bool.not_eq_true', List.any_eq_false]
  intro x hx
  rw [List.mem_filter] at hx
  simp only [decide_eq_true_eq]
  intro hxm
  have hxeq : x = m := hinj x hx.1 m hm hxm
  rw [hxeq] at hx
  rw [hin] at hx
  simp at hx

/-- The joint reconciliation invariant: at most one rendered-or-pending
occurrence per place id, and every rendered marker's id is registered in
the id-set. -/
def ReconInv (s : MapState) : Prop :=
  (∀ i, markerCount s i + pendingCount s i ≤ 1) ∧
  (∀ m ∈ s.markers, m.locId ∈ s.markerLocationIds)

/-- An event is safe when it does not dispatch a place id whose weather
fetch is still in flight; completions and clears are always safe. -/
def safeEvent (s : MapState) : MEvent → Bool
  | .dispatch loc => pendingCount s loc.id == 0
  | _ => true

/-- A trace is safe when every event is safe in the state it meets. -/
def safeTrace : MapState → List MEvent → Bool
  | _, [] => true
  | s, e :: es => safeEvent s e && safeTrace (mstep s e) es

/-- One safe step preserves the reconciliation invariant. -/
theorem reconInv_step {s : MapState} {e : MEvent}
    (hs : ReconInv s) (he : safeEvent s e = true) : ReconInv (mstep s e) := by
  obtain ⟨hcnt, hmem⟩ := hs
  cases e with
  | dispatch loc =>
    simp only [safeEvent, beq_iff_eq] at he
    by_cases hin : loc.id ∈ s.markerLocationIds
    · simpa [mstep, hin] using ⟨hcnt, hmem⟩
    · refine ⟨?_, ?_⟩
      · intro i
        have hmc0 : i = loc.id → markerCount s i = 0 := by
          intro hi
          by_contra hpos
          have : 0 < markerCount s i := Nat.pos_of_ne_zero hpos
          obtain ⟨m, hm, hpm⟩ := List.countP_pos_iff.mp this
          simp only [decide_eq_true_eq] at hpm
          exact hin (by rw [← hi, ← hpm]; exact hmem m hm)
        have hmarkers : markerCount (mstep s (.dispatch loc)) i = markerCount s i := by
          simp [mstep, hin, markerCount]
        have hpend : pendingCount (mstep s (.dispatch loc)) i
            = pendingCount s i + (if loc.id = i then 1 else 0) := by
          simp only [mstep, if_neg hin, pendingCount, List.countP_append,
            List.countP_cons, List.countP_nil]
          simp
        rw [hmarkers, hpend]
        by_cases hi : loc.id = i
        · rw [if_pos hi]
          have := hmc0 hi.symm
          rw [← hi] at this ⊢
          omega
        · rw [if_neg hi]
          have := hcnt i
          omega
      · intro m hm
        have : m ∈ s.markers := by simpa [mstep, hin] using hm
        simpa [mstep, hin] using hmem m this
  | complete loc ok =>
    by_cases hp : loc ∈ s.pending
    case neg => simpa [mstep, hp] using ⟨hcnt, hmem⟩
    case pos =>
      have hperm := List.perm_cons_erase hp
      have hpc : ∀ i, pendingCount s i
          = (s.pending.erase loc).countP (fun l => l.id = i)
            + (if loc.id = i then 1 else 0) := by
        intro i
        unfold pendingCount
        rw [hperm.countP_eq, List.countP_cons]
        simp
      have hone : pendingCount s loc.id ≤ 1 := by
        have := hcnt loc.id
        omega
      have hmc0 : markerCount s loc.id = 0 := by
        have h1 : 1 ≤ pendingCount s loc.id := by
          rw [hpc loc.id, if_pos rfl]
          omega
        have := hcnt loc.id
        omega
      cases ok with
      | true =>
        refine ⟨?_, ?_⟩
        · intro i
          have hmk : markerCount (mstep s (.complete loc true)) i
              = markerCount s i + (if loc.id = i then 1 else 0) := by
            simp only [mstep, if_pos hp, if_pos rfl, markerCount,
              List.countP_append, List.countP_cons, List.countP_nil]
            by_cases hi : loc.id = i <;> simp [List.countP_cons, hi]
          have hpd : pendingCount (mstep s (.complete loc true)) i
              = (s.pending.erase loc).countP (fun l => l.id = i) := by
            simp [mstep, hp, pendingCount]
          rw [hmk, hpd]
          by_cases hi : loc.id = i
          · rw [if_pos hi]
            subst hi
            have h1 := hcnt loc.id
            have h2 := hpc loc.id
            rw [if_pos rfl] at h2
            omega
          · rw [if_neg hi]
            have h1 := hcnt i
            have h2 := hpc i
            rw [if_neg hi] at h2
            omega
        · intro m hm
          have hids : (mstep s (.complete loc true)).markerLocationIds
              = insertId loc.id s.markerLocationIds := by
            simp [mstep, hp]
          have hm2 : m ∈ s.markers
              ++ [(⟨loc.id, loc.latitude, loc.longitude⟩ : Marker)] := by
            simpa [mstep, hp] using hm
          rw [hids, insertId]
          rcases List.mem_append.mp hm2 with hmo | hmn
          · have hidm := hmem m hmo
            by_cases hc : loc.id ∈ s.markerLocationIds
            · simpa [hc] using hidm
            · simp only [if_neg hc, List.mem_append]
              exact Or.inl hidm
          · have hmeq : m = ⟨loc.id, loc.latitude, loc.longitude⟩ := by
              simpa using hmn
            rw [hmeq]
            by_cases hc : loc.id ∈ s.markerLocationIds
            · simp [hc]
            · simp [hc]
      | false =>
        refine ⟨?_, ?_⟩
        · intro i
          have hmk : markerCount (mstep s (.complete loc false)) i
              = markerCount s i := by
            simp [mstep, hp, markerCount]
          have hpd : pendingCount (mstep s (.complete loc false)) i
              ≤ pendingCount s i := by
            have heq : pendingCount (mstep s (.complete loc false)) i
                = (s.pending.erase loc).countP (fun l => l.id = i) := by
              simp [mstep, hp, pendingCount]
            rw [heq]
            exact List.Sublist.countP_le _ (List.erase_sublist loc s.pending)
          have := hcnt i
          omega
        · intro m hm
          have : m ∈ s.markers := by simpa [mstep, hp] using hm
          simpa [mstep, hp] using hmem m this
  | zoomClear =>
    refine ⟨?_, ?_⟩
    · intro i
      have h0 : markerCount (mstep s .zoomClear) i = 0 := by
        simp [mstep, markerCount]
      have hpd : pendingCount (mstep s .zoomClear) i = pendingCount s i := by
        simp [mstep, pendingCount]
      have := hcnt i
      omega
    · intro m hm
      simp [mstep] at hm
  | panClear b =>
    refine ⟨?_, ?_⟩
    · intro i
      have hmk : markerCount (mstep s (.panClear b)) i
          = (s.markers.filter (fun m => boundsContains b m.lat m.lng)).countP
              (fun m => m.locId = i) := by
        simp [mstep, markerCount]
      have hle : (s.markers.filter (fun m => boundsContains b m.lat m.lng)).countP
              (fun m => m.locId = i) ≤ markerCount s i :=
        List.Sublist.countP_le _ (List.filter_sublist s.markers)
      have hpd : pendingCount (mstep s (.panClear b)) i = pendingCount s i := by
        simp [mstep, pendingCount]
      have := hcnt i
      omega
    · intro m hm
      have hm' : m ∈ s.markers ∧ boundsContains b m.lat m.lng = true := by
        simpa [mstep, List.mem_filter] using hm
      have hinj : ∀ x ∈ s.markers, ∀ y ∈ s.markers, x.locId = y.locId → x = y :=
        markers_inj_of_count (fun i => by have := hcnt i; omega)
      exact panClear_keeps_id hinj hm'.1 hm'.2 (hmem m hm'.1)

/-- A safe trace preserves the reconciliation invariant. -/
theorem reconInv_run {s : MapState} {es : List MEvent}
    (hs : ReconInv s) (ht : safeTrace s es = true) : ReconInv (mrun s es) := by
  induction es generalizing s with
  | nil => simpa [mrun] using hs
  | cons e es ih =>
    simp only [safeTrace, Bool.and_eq_true] at ht
    have := ih (reconInv_step hs ht.1) ht.2
    simpa [mrun] using this

/-- **C1** (amended): for every sequence of reconciler events in which no
place id is dispatched while a weather fetch for the same id is still in
flight (in particular, whenever each weather fetch completes before the
id is dispatched again), the rendered marker count for any given id
never exceeds 1; dispatching an id whose fetch is still pending can
instead create duplicates. -/
theorem marker_dedup_amended (es : List MEvent)
    (h : safeTrace initMapState es = true) :
    ∀ i, markerCount (mrun initMapState es) i ≤ 1 := by
  have hinit : ReconInv initMapState := by
    refine ⟨fun i => ?_, fun m hm => ?_⟩
    · simp [markerCount, pendingCount, initMapState]
    · simp [initMapState] at hm
  intro i
  have := (reconInv_run hinit h).1 i
  omega

/-- **C1** witness: a safe trace (the same id dispatched twice, but the
second dispatch after the first fetch completed) keeps the count at 1. -/
theorem marker_dedup_amended_witness :
    safeTrace initMapState
        [.dispatch locX, .complete locX true, .dispatch locX] = true ∧
    markerCount
        (mrun initMapState
          [.dispatch locX, .complete locX true, .dispatch locX]) "1" ≤ 1 :=
  ⟨by decide,
   marker_dedup_amended [.dispatch locX, .complete locX true, .dispatch locX]
     (by decide) "1"⟩

/-- The event sequence the debounced pipeline runs for a zoom-tagged
viewport event whose geodata query returned `locs`: `clearMarkers(true)`
followed by the dispatch half of `addMarkersForLocations(locs)`. -/
def zoomEvents (locs : List WeatherLocation) : List MEvent :=
  MEvent.zoomClear :: locs.map MEvent.dispatch

/-- Completion events only. -/
def isCompletion : MEvent → Bool
  | .complete _ _ => true
  | _ => false

/-- A weather fetch for `locX` dispatched before the zoom; the zoom-tagged
event whose query returns only `locY`; then both fetches complete, the
pre-zoom one last. -/
def staleZoomEvents : List MEvent :=
  [.dispatch locX] ++ zoomEvents [locY] ++
    [.complete locY true, .complete locX true]

/-- **C4** (counterexample): a weather fetch dispatched before the zoom
event is not cancelled by the full clear, and its completion callback
creates the marker without re-checking: after the pass completes, a
marker for id `"1"` (the pre-zoom place) is rendered although the most
recent geodata query returned only id `"2"` — a pre-zoom marker
survives. -/
theorem zoom_full_refresh_counterexample :
    markerCount (mrun initMapState staleZoomEvents) "1" = 1 ∧
    [locY].all (fun l => l.id ≠ "1") = true := by
  decide

/-- Dispatching places drawn from `locs` preserves "all markers and all
in-flight fetches come from `locs`". -/
theorem dispatch_run_from (locs : List WeatherLocation) :
    ∀ (ds : List WeatherLocation) (t : MapState),
      (∀ l ∈ ds, l ∈ locs) →
      (∀ m ∈ t.markers, ∃ l ∈ locs, l.id = m.locId) →
      (∀ p ∈ t.pending, p ∈ locs) →
      (∀ m ∈ (mrun t (ds.map MEvent.dispatch)).markers,
          ∃ l ∈ locs, l.id = m.locId) ∧
      (∀ p ∈ (mrun t (ds.map MEvent.dispatch)).pending, p ∈ locs) := by
  intro ds
  induction ds with
  | nil => intro t _ h1 h2; exact ⟨h1, h2⟩
  | cons d ds ih =>
    intro t hds h1 h2
    have hstep : mrun t ((d :: ds).map MEvent.dispatch)
        = mrun (mstep t (.dispatch d)) (ds.map MEvent.dispatch) := rfl
    rw [hstep]
    refine ih (mstep t (.dispatch d)) (fun l hl => hds l (List.mem_cons_of_mem d hl))
        ?_ ?_
    · intro m hm
      by_cases hin : d.id ∈ t.markerLocationIds
      · exact h1 m (by simpa [mstep, hin] using hm)
      · exact h1 m (by simpa [mstep, hin] using hm)
    · intro p hp
      by_cases hin : d.id ∈ t.markerLocationIds
      · exact h2 p (by simpa [mstep, hin] using hp)
      · have : p ∈ t.pending ++ [d] := by simpa [mstep, hin] using hp
        rcases List.mem_append.mp this with h | h
        · exact h2 p h
        · have : p = d := by simpa using h
          rw [this]
          exact hds d (List.mem_cons_self _ _)

/-- Completions preserve "all markers and all in-flight fetches come
from `locs`". -/
theorem complete_run_from (locs : List WeatherLocation) :
    ∀ (cs : List MEvent) (t : MapState),
      (∀ e ∈ cs, isCompletion e = true) →
      (∀ m ∈ t.markers, ∃ l ∈ locs, l.id = m.locId) →
      (∀ p ∈ t.pending, p ∈ locs) →
      (∀ m ∈ (mrun t cs).markers, ∃ l ∈ locs, l.id = m.locId) := by
  intro cs
  induction cs with
  | nil => intro t _ h1 _; exact h1
  | cons c cs ih =>
    intro t hcs h1 h2
    cases c with
    | dispatch loc => simpa [ isCompletion] using hcs (.dispatch loc) (List.mem_cons_self _ _)
    | zoomClear => simpa [ isCompletion] using hcs .zoomClear (List.mem_cons_self _ _)
    | panClear b => simpa [ isCompletion] using hcs (.panClear b) (List.mem_cons_self _ _)
    | complete loc ok =>
      have hstep : mrun t (MEvent.complete loc ok :: cs)
          = mrun (mstep t (.complete loc ok)) cs := rfl
      rw [hstep]
      refine ih (mstep t (.complete loc ok))
          (fun e he => hcs e (List.mem_cons_of_mem _ he)) ?_ ?_
      · intro m hm
        by_cases hp : loc ∈ t.pending
        · cases ok with
          | true =>
            have hm2 : m ∈ t.markers
                ++ [(⟨loc.id, loc.latitude, loc.longitude⟩ : Marker)] := by
              simpa [mstep, hp] using hm
            rcases List.mem_append.mp hm2 with h | h
            · exact h1 m h
            · have hme : m = ⟨loc.id, loc.latitude, loc.longitude⟩ := by
                simpa using h
              exact ⟨loc, h2 loc hp, by rw [hme]⟩
          | false => exact h1 m (by simpa [mstep, hp] using hm)
        · exact h1 m (by simpa [mstep, hp] using hm)
      · intro p hp'
        by_cases hp : loc ∈ t.pending
        · cases ok with
          | true =>
            have : p ∈ t.pending.erase loc := by simpa [mstep, hp] using hp'
            exact h2 p (List.Sublist.mem this (List.erase_sublist loc t.pending))
          | false =>
            have : p ∈ t.pending.erase loc := by simpa [mstep, hp] using hp'
            exact h2 p (List.Sublist.mem this (List.erase_sublist loc t.pending))
        · exact h2 p (by simpa [mstep, hp] using hp')

/-- **C4** (amended): a zoom-tagged viewport event removes every
currently rendered marker before the geodata query; and provided no
weather fetch from an earlier batch is still in flight when the zoom
event is processed, after the pass completes (the dispatched fetches
finishing in any order) every remaining marker corresponds to a place
returned by the most recent geodata query.  A weather fetch still
pending from before the zoom can instead re-create a marker for a
pre-zoom place. -/
theorem zoom_full_refresh_amended (s : MapState) (locs : List WeatherLocation)
    (cs : List MEvent) (hp : s.pending = [])
    (hc : ∀ e ∈ cs, isCompletion e = true) :
    (mstep s MEvent.zoomClear).markers = [] ∧
    ∀ m ∈ (mrun s (zoomEvents locs ++ cs)).markers,
      ∃ l ∈ locs, l.id = m.locId := by
  constructor
  · rfl
  · have hsplit : mrun s (zoomEvents locs ++ cs)
        = mrun (mrun (mstep s MEvent.zoomClear) (locs.map MEvent.dispatch)) cs := by
      simp [mrun, zoomEvents, List.foldl_append]
    rw [hsplit]
    have h0m : ∀ m ∈ (mstep s MEvent.zoomClear).markers,
        ∃ l ∈ locs, l.id = m.locId := by
      intro m hm
      simp [mstep] at hm
    have h0p : ∀ p ∈ (mstep s MEvent.zoomClear).pending, p ∈ locs := by
      intro p hp'
      have : p ∈ s.pending := by simpa [mstep] using hp'
      rw [hp] at this
      simp at this
    have h1 := dispatch_run_from locs locs (mstep s MEvent.zoomClear)
        (fun l hl => hl) h0m h0p
    exact complete_run_from locs cs _ hc h1.1 h1.2

/-- **C4** witness: no fetch in flight at the zoom; the query returns
`locY` and its fetch completes. -/
theorem zoom_full_refresh_amended_witness :
    (initMapState.pending = [] ∧
      ∀ e ∈ [MEvent.complete locY true], isCompletion e = true) ∧
    ((mstep initMapState MEvent.zoomClear).markers = [] ∧
     ∀ m ∈ (mrun initMapState
          (zoomEvents [locY] ++ [MEvent.complete locY true])).markers,
        ∃ l ∈ [locY], l.id = m.locId) :=
  ⟨⟨rfl, by decide⟩,
   zoom_full_refresh_amended initMapState [locY] [MEvent.complete locY true]
     rfl (by decide)⟩

/-- **C5**: for a pan-tagged viewport event, `clearMarkers(false)`
removes exactly the markers whose position falls outside the current
bounds: the in-bounds markers survive unchanged (the same marker
objects, in order), in-flight fetches are untouched, and — provided the
rendered markers carry pairwise-distinct place ids and are all
registered, i.e. the spec's Invariant I1 holds in the pre-state — each
surviving marker's id stays registered in the id-set. -/
theorem pan_partial_refresh (s : MapState) (b : Bounds)
    (hnd : (s.markers.map (fun m => m.locId)).Nodup)
    (hreg : ∀ m ∈ s.markers, m.locId ∈ s.markerLocationIds) :
    (mstep s (.panClear b)).markers
        = s.markers.filter (fun m => boundsContains b m.lat m.lng) ∧
    (mstep s (.panClear b)).pending = s.pending ∧
    ∀ m ∈ s.markers, boundsContains b m.lat m.lng = true →
      m.locId ∈ (mstep s (.panClear b)).markerLocationIds := by
  refine ⟨rfl, rfl, ?_⟩
  intro m hm hin
  exact panClear_keeps_id (List.inj_on_of_nodup_map hnd) hm hin (hreg m hm)

/-- A reconciler state with one in-bounds and one out-of-bounds marker. -/
def twoMarkerState : MapState :=
  ⟨[⟨"1", 0, 0⟩, ⟨"2", 50, 50⟩], ["1", "2"], []⟩

/-- Bounds containing the origin but not `(50, 50)`. -/
def smallBounds : Bounds := ⟨10, -10, 10, -10⟩

/-- **C5** witness: the pan clear removes only the out-of-bounds marker
`"2"`; marker `"1"` survives with its id still registered. -/
theorem pan_partial_refresh_witness :
    ((twoMarkerState.markers.map (fun m => m.locId)).Nodup ∧
      ∀ m ∈ twoMarkerState.markers,
        m.locId ∈ twoMarkerState.markerLocationIds) ∧
    ((mstep twoMarkerState (.panClear smallBounds)).markers
        = twoMarkerState.markers.filter
            (fun m => boundsContains smallBounds m.lat m.lng) ∧
     (mstep twoMarkerState (.panClear smallBounds)).pending
        = twoMarkerState.pending ∧
     ∀ m ∈ twoMarkerState.markers,
        boundsContains smallBounds m.lat m.lng = true →
        m.locId ∈ (mstep twoMarkerState
            (.panClear smallBounds)).markerLocationIds) :=
  ⟨⟨by decide, by decide⟩,
   pan_partial_refresh twoMarkerState smallBounds (by decide) (by decide)⟩

end WeatherMap
